import Mathlib

/-!
Verification of the zod-open-api server (`src/server.ts`): a shallow
embedding of the Zod schemas `UserSchema` and `GetUserQueryDTO`, the
`validateRequest` middleware and the `POST /users` route, together with
proofs of the specified validation behaviour.

JSON numbers are modelled as rationals (every finite JavaScript number the
schemas care about is rational; `NaN`/`Infinity` are not producible by the
JSON body parser). JavaScript objects produced by `JSON.parse` have unique
keys, modelled as association lists with first-match lookup.
-/

namespace ZodOpenApi

/-- JSON values as delivered to the middleware by `express.json()`. -/
inductive Json where
  | null
  | bool (b : Bool)
  | num (q : Rat)
  | str (s : String)
  | arr (elems : List Json)
  | obj (fields : List (String × Json))

/-- One element of a Zod issue `path`: an object key or an array index. -/
inductive PathElem where
  | key (s : String)
  | idx (n : Nat)
deriving DecidableEq

/-- A Zod issue as found in `ZodError.errors`: the universal fields
`code`, `message`, `path`, plus the issue-kind specific fields
(`expected`, `received`, `minimum`, ...) kept as a raw key/value list. -/
structure Issue where
  code : String
  message : String
  path : List PathElem
  extra : List (String × Json)

/-- Property access `fields[k]` on a parsed-JSON object (unique keys:
first match). -/
def getKey : List (String × Json) → String → Option Json
  | [], _ => none
  | (k, v) :: rest, key => if k = key then some v else getKey rest key

/-- Zod's `getParsedType` on a JSON value (the `received` tag). -/
def typeName : Json → String
  | .null => "null"
  | .bool _ => "boolean"
  | .num _ => "number"
  | .str _ => "string"
  | .arr _ => "array"
  | .obj _ => "object"

/-! ### Zod's email format check

Zod v3 validates `.email()` with the regular expression
`^(?!\.)(?!.*\.\.)([A-Z0-9_'+\-\.]*)[A-Z0-9_+\-]@([A-Z0-9][A-Z0-9\-]*\.)+[A-Z]{2,}$`
(case-insensitive), decomposed here into executable checks. -/

def isAlnumChar (c : Char) : Bool := c.isAlpha || c.isDigit

def isLocalChar (c : Char) : Bool :=
  isAlnumChar c || c = '_' || c = Char.ofNat 39 || c = '+' || c = '-' || c = '.'

def isLocalEndChar (c : Char) : Bool :=
  isAlnumChar c || c = '_' || c = '+' || c = '-'

def isDomainChar (c : Char) : Bool := isAlnumChar c || c = '-'

/-- No two consecutive dots anywhere (the `(?!.*\.\.)` lookahead). -/
def noDoubleDot : List Char → Bool
  | c1 :: c2 :: rest => !(c1 = '.' && c2 = '.') && noDoubleDot (c2 :: rest)
  | _ => true

/-- The string does not start with a dot (the `(?!\.)` lookahead). -/
def headNotDot : List Char → Bool
  | [] => false
  | c :: _ => !(c = '.')

/-- The last character of the local part lies in `[A-Z0-9_+\-]`. -/
def lastCharOk : List Char → Bool
  | [] => false
  | [c] => isLocalEndChar c
  | _ :: rest => lastCharOk rest

/-- A non-final domain label: `[A-Z0-9][A-Z0-9\-]*`. -/
def domainLabelOk (l : List Char) : Bool :=
  match l with
  | [] => false
  | c :: rest => isAlnumChar c && rest.all isDomainChar

/-- The final domain label: `[A-Z]{2,}`. -/
def tldOk (l : List Char) : Bool :=
  l.all Char.isAlpha && decide (2 ≤ l.length)

/-- Split a character list at every occurrence of `c` (like
`String.splitOn` with a one-character separator). -/
def splitOnChar (c : Char) : List Char → List (List Char)
  | [] => [[]]
  | x :: rest =>
      match splitOnChar c rest, decide (x = c) with
      | groups, true => [] :: groups
      | [], false => [[x]]
      | g :: gs, false => (x :: g) :: gs

/-- Zod's `.email()` regular expression, as a decidable check. -/
def isValidEmail (s : String) : Bool :=
  match splitOnChar '@' s.data with
  | [l, d] =>
      headNotDot s.data && noDoubleDot s.data &&
      !l.isEmpty && l.all isLocalChar && lastCharOk l &&
      (let labels := splitOnChar '.' d
       decide (2 ≤ labels.length) && labels.dropLast.all domainLabelOk &&
       (match labels.getLast? with
        | some t => tldOk t
        | none => false))
  | _ => false

/-! ### `UserSchema` (src/server.ts lines 17-49)

Each field parser takes the result of the key lookup on the request body
(`none` models JavaScript `undefined` for a missing key) and returns the
parsed value or the Zod issues for that field, with the issue `code`,
`message`, `path` and kind-specific fields exactly as Zod produces them. -/

/-- `name: z.string({required_error, invalid_type_error}).min(2, {message})`. -/
def parseName : Option Json → Except (List Issue) Json
  | none => .error [⟨"invalid_type", "Name is required.", [.key "name"],
      [("expected", .str "string"), ("received", .str "undefined")]⟩]
  | some (.str s) =>
      if s.length < 2 then
        .error [⟨"too_small", "Name must be at least 2 characters long.", [.key "name"],
          [("minimum", .num 2), ("type", .str "string"), ("inclusive", .bool true),
           ("exact", .bool false)]⟩]
      else .ok (.str s)
  | some v => .error [⟨"invalid_type", "Name must be a string.", [.key "name"],
      [("expected", .str "string"), ("received", .str (typeName v))]⟩]

/-- `email: z.string({required_error, invalid_type_error}).email({message})`. -/
def parseEmail : Option Json → Except (List Issue) Json
  | none => .error [⟨"invalid_type", "Email is required.", [.key "email"],
      [("expected", .str "string"), ("received", .str "undefined")]⟩]
  | some (.str s) =>
      if isValidEmail s then .ok (.str s)
      else .error [⟨"invalid_string", "Invalid email format. Please provide a valid email.",
        [.key "email"], [("validation", .str "email")]⟩]
  | some v => .error [⟨"invalid_type", "Email must be a string.", [.key "email"],
      [("expected", .str "string"), ("received", .str (typeName v))]⟩]

/-- Issue of the `.int({message})` check on `age`. -/
def ageIntIssue : Issue :=
  ⟨"invalid_type", "Age must be an integer.", [.key "age"],
    [("expected", .str "integer"), ("received", .str "float")]⟩

/-- Issue of the `.min(0, {message})` check on `age`. -/
def ageMinIssue : Issue :=
  ⟨"too_small", "Age must be a non-negative number.", [.key "age"],
    [("minimum", .num 0), ("type", .str "number"), ("inclusive", .bool true),
     ("exact", .bool false)]⟩

/-- The `.int()` then `.min(0)` checks run in order on a number; Zod
collects the issues of every failing check. -/
def ageCheckIssues (q : Rat) : List Issue :=
  (if q.den = 1 then [] else [ageIntIssue]) ++ (if q < 0 then [ageMinIssue] else [])

/-- `age: z.number({invalid_type_error}).int(...).min(0, ...).optional()`.
Returns `none` when the optional field is absent (omitted from the output). -/
def parseAge : Option Json → Except (List Issue) (Option Json)
  | none => .ok none
  | some (.num q) =>
      let es := ageCheckIssues q
      if es.isEmpty then .ok (some (.num q)) else .error es
  | some v => .error [⟨"invalid_type", "Age must be a number.", [.key "age"],
      [("expected", .str "number"), ("received", .str (typeName v))]⟩]

/-- Message produced by the `errorMap` passed to `z.enum(['admin', 'user'])`. -/
def roleMessage : String := "Role must be \x27admin\x27 or \x27user\x27."

/-- Issues of parsing one `roles` element at index `i` against the enum:
a wrong string is `invalid_enum_value`, a non-string is `invalid_type`;
the custom `errorMap` overrides the message in both cases. -/
def roleElemIssues (i : Nat) : Json → List Issue
  | .str s =>
      if s = "admin" ∨ s = "user" then []
      else [⟨"invalid_enum_value", roleMessage, [.key "roles", .idx i],
        [("received", .str s), ("options", .arr [.str "admin", .str "user"])]⟩]
  | v => [⟨"invalid_type", roleMessage, [.key "roles", .idx i],
      [("expected", .str "\x27admin\x27 | \x27user\x27"), ("received", .str (typeName v))]⟩]

/-- `z.array(...)` parses every element, collecting issues in index order. -/
def rolesIssuesFrom : Nat → List Json → List Issue
  | _, [] => []
  | i, v :: rest => roleElemIssues i v ++ rolesIssuesFrom (i + 1) rest

/-- `roles: z.array(z.enum(['admin', 'user'], {errorMap})).default(['user'])`.
`.default` applies only when the key is absent (`undefined`); any present
value, including `null`, is parsed by the array schema. -/
def parseRoles : Option Json → Except (List Issue) Json
  | none => .ok (.arr [.str "user"])
  | some (.arr xs) =>
      let es := rolesIssuesFrom 0 xs
      if es.isEmpty then .ok (.arr xs) else .error es
  | some v => .error [⟨"invalid_type", "Expected array, received " ++ typeName v, [.key "roles"],
      [("expected", .str "array"), ("received", .str (typeName v))]⟩]

/-- Issues of an `Except` result (empty on success). -/
def errList {α : Type} : Except (List Issue) α → List Issue
  | .ok _ => []
  | .error es => es

/-- The optional `age` entry of the output object: present iff the key was
present in the input (Zod omits an absent optional key from its output). -/
def ageField : Option Json → List (String × Json)
  | none => []
  | some a => [("age", a)]

/-- `z.object({...})` on the fields of an object: parses the four declared
keys in declaration order, strips undeclared keys, succeeds iff every field
succeeds, and otherwise collects all issues in field declaration order. -/
def UserSchema.parseFields (ps : List (String × Json)) : Except (List Issue) Json :=
  match parseName (getKey ps "name"), parseEmail (getKey ps "email"),
        parseAge (getKey ps "age"), parseRoles (getKey ps "roles") with
  | .ok n, .ok e, .ok a, .ok r =>
      .ok (.obj ([("name", n), ("email", e)] ++ ageField a ++ [("roles", r)]))
  | rn, re, ra, rr => .error (errList rn ++ errList re ++ errList ra ++ errList rr)

/-- `UserSchema.parseAsync` on a JSON body: a non-object is rejected with a
single root-level `invalid_type` issue. -/
def UserSchema.parse : Json → Except (List Issue) Json
  | .obj ps => UserSchema.parseFields ps
  | v => .error [⟨"invalid_type", "Expected object, received " ++ typeName v, [],
      [("expected", .str "object"), ("received", .str (typeName v))]⟩]

/-- `const CreateUserDTO = UserSchema` (line 55). -/
def CreateUserDTO.parse : Json → Except (List Issue) Json := UserSchema.parse

/-! ### The `validateRequest` middleware and the `POST /users` route
(src/server.ts lines 128-148 and 155-159) -/

/-- What `schema.parseAsync` can throw: a `ZodError` carrying the issue
list, or any other exception (abstracted by a tag). -/
inductive CaughtError where
  | zodError (issues : List Issue)
  | other (tag : Nat)

/-- Observable outcome of the middleware: continue the pipeline with the
replaced `req.body`, send a response, or `next(error)`. -/
inductive MwOutcome where
  | next (newBody : Json)
  | respond (status : Nat) (body : Json)
  | forwardError (tag : Nat)

/-- Serialization of a `path`: keys as strings, indices as numbers. -/
def pathElemToJson : PathElem → Json
  | .key s => .str s
  | .idx n => .num n

/-- The JSON serialization of a raw Zod issue (all of its fields). -/
def issueToJson (i : Issue) : Json :=
  .obj (("code", .str i.code) :: i.extra
    ++ [("path", .arr (i.path.map pathElemToJson)), ("message", .str i.message)])

/-- The 400 response body `{error: 'Validation failed', details: error.errors}`. -/
def errorBody (issues : List Issue) : Json :=
  .obj [("error", .str "Validation failed"), ("details", .arr (issues.map issueToJson))]

/-- `validateRequest(schema)` (lines 128-148), as a function of the outcome
of `schema.parseAsync(req.body)`: on success replace the body and call
`next()`; on a `ZodError` respond 400; on any other error call `next(error)`. -/
def validateRequest : Except CaughtError Json → MwOutcome
  | .ok u => .next u
  | .error (.zodError issues) => .respond 400 (errorBody issues)
  | .error (.other t) => .forwardError t

/-- `CreateUserDTO.parseAsync` as the middleware sees it: it only ever
throws `ZodError`. -/
def runCreateUser (body : Json) : Except CaughtError Json :=
  (CreateUserDTO.parse body).mapError .zodError

/-- End-to-end `POST /users` (middleware, then the handler of lines
155-159, which answers 201 with the validated body). -/
def postUsers (body : Json) : Nat × Json :=
  match CreateUserDTO.parse body with
  | .ok user => (201, user)
  | .error e => (400, errorBody e)

/-! ### `GetUserQueryDTO` (src/server.ts lines 57-82) -/

/-- The predicate of `.refine((val) => typeof val === 'boolean', ...)`. -/
def includeRolesRefine (v : Json) : Bool :=
  match v with
  | .bool _ => true
  | _ => false

/-- Issue the refinement would raise (Zod code `custom`). -/
def includeRolesRefineIssue : Issue :=
  ⟨"custom", "IncludeRoles must be a boolean value.", [.key "includeRoles"], []⟩

/-- `includeRoles: z.boolean({...}).default(false).refine(...)`: the
default applies to an absent key, then the refinement runs on the parsed
(or defaulted) boolean. -/
def parseIncludeRoles : Option Json → Except (List Issue) Json
  | none =>
      if includeRolesRefine (.bool false) then .ok (.bool false)
      else .error [includeRolesRefineIssue]
  | some (.bool b) =>
      if includeRolesRefine (.bool b) then .ok (.bool b)
      else .error [includeRolesRefineIssue]
  | some v => .error [⟨"invalid_type", "IncludeRoles must be a boolean.", [.key "includeRoles"],
      [("expected", .str "boolean"), ("received", .str (typeName v))]⟩]

/-- Issue of the `.int({message})` check on `page`. -/
def pageIntIssue : Issue :=
  ⟨"invalid_type", "Page must be an integer.", [.key "page"],
    [("expected", .str "integer"), ("received", .str "float")]⟩

/-- Issue of the `.min(1, {message})` check on `page`. -/
def pageMinIssue : Issue :=
  ⟨"too_small", "Page must be at least 1.", [.key "page"],
    [("minimum", .num 1), ("type", .str "number"), ("inclusive", .bool true),
     ("exact", .bool false)]⟩

/-- Checks `.int()` then `.min(1)` on a numeric `page`. -/
def pageCheckIssues (q : Rat) : List Issue :=
  (if q.den = 1 then [] else [pageIntIssue]) ++ (if q < 1 then [pageMinIssue] else [])

/-- `page: z.number({...}).int(...).min(1, ...).default(1)`. -/
def parsePage : Option Json → Except (List Issue) Json
  | none => .ok (.num 1)
  | some (.num q) =>
      let es := pageCheckIssues q
      if es.isEmpty then .ok (.num q) else .error es
  | some v => .error [⟨"invalid_type", "Page must be a number.", [.key "page"],
      [("expected", .str "number"), ("received", .str (typeName v))]⟩]

/-- Issue of the `.int({message})` check on `limit`. -/
def limitIntIssue : Issue :=
  ⟨"invalid_type", "Limit must be an integer.", [.key "limit"],
    [("expected", .str "integer"), ("received", .str "float")]⟩

/-- Issue of the `.min(1, {message})` check on `limit`. -/
def limitMinIssue : Issue :=
  ⟨"too_small", "Limit must be at least 1.", [.key "limit"],
    [("minimum", .num 1), ("type", .str "number"), ("inclusive", .bool true),
     ("exact", .bool false)]⟩

/-- Issue of the `.max(100, {message})` check on `limit`. -/
def limitMaxIssue : Issue :=
  ⟨"too_big", "Limit cannot exceed 100.", [.key "limit"],
    [("maximum", .num 100), ("type", .str "number"), ("inclusive", .bool true),
     ("exact", .bool false)]⟩

/-- Checks `.int()`, `.min(1)`, `.max(100)` on a numeric `limit`. -/
def limitCheckIssues (q : Rat) : List Issue :=
  (if q.den = 1 then [] else [limitIntIssue]) ++ (if q < 1 then [limitMinIssue] else [])
    ++ (if 100 < q then [limitMaxIssue] else [])

/-- `limit: z.number({...}).int(...).min(1, ...).max(100, ...).default(10)`. -/
def parseLimit : Option Json → Except (List Issue) Json
  | none => .ok (.num 10)
  | some (.num q) =>
      let es := limitCheckIssues q
      if es.isEmpty then .ok (.num q) else .error es
  | some v => .error [⟨"invalid_type", "Limit must be a number.", [.key "limit"],
      [("expected", .str "number"), ("received", .str (typeName v))]⟩]

/-- `z.object` over the three query fields, in declaration order. -/
def GetUserQueryDTO.parseFields (ps : List (String × Json)) : Except (List Issue) Json :=
  match parseIncludeRoles (getKey ps "includeRoles"), parsePage (getKey ps "page"),
        parseLimit (getKey ps "limit") with
  | .ok ir, .ok p, .ok l => .ok (.obj [("includeRoles", ir), ("page", p), ("limit", l)])
  | r1, r2, r3 => .error (errList r1 ++ errList r2 ++ errList r3)

/-- `GetUserQueryDTO.parseAsync` on a JSON value. -/
def GetUserQueryDTO.parse : Json → Except (List Issue) Json
  | .obj ps => GetUserQueryDTO.parseFields ps
  | v => .error [⟨"invalid_type", "Expected object, received " ++ typeName v, [],
      [("expected", .str "object"), ("received", .str (typeName v))]⟩]

/-! ### The 400 response schema registered with the OpenAPI registry
(src/server.ts lines 107-124): `z.object({error: z.string(), details:
z.array(z.object({code: z.string(), message: z.string(), path:
z.array(z.string())}))})`. `conforms400` is its success predicate
(`z.object` strips undeclared keys, so extra keys alone never fail). -/

def isStrJson : Json → Bool
  | .str _ => true
  | _ => false

/-- Success of the registered `details` entry schema on a JSON value. -/
def detail400Ok (j : Json) : Bool :=
  match j with
  | .obj ps =>
      (match getKey ps "code" with | some (.str _) => true | _ => false) &&
      (match getKey ps "message" with | some (.str _) => true | _ => false) &&
      (match getKey ps "path" with | some (.arr xs) => xs.all isStrJson | _ => false)
  | _ => false

/-- Success of the registered 400 response schema on a JSON value. -/
def conforms400 (j : Json) : Bool :=
  match j with
  | .obj ps =>
      (match getKey ps "error" with | some (.str _) => true | _ => false) &&
      (match getKey ps "details" with | some (.arr ds) => ds.all detail400Ok | _ => false)
  | _ => false

/-! ### Spec-side count of violated constraints

Written from the spec's constraint list ("name: minimum length 2; email:
must match email format; age: integer, ≥ 0; roles: sequence of values from
\x7badmin, user\x7d; required fields must be present with the right type"),
independent of the issue lists the parsers build. -/

/-- Violations of the `name` constraints (required, string, length ≥ 2). -/
def nameViolations : Option Json → Nat
  | none => 1
  | some (.str s) => if s.length < 2 then 1 else 0
  | some _ => 1

/-- Violations of the `email` constraints (required, string, email format). -/
def emailViolations : Option Json → Nat
  | none => 1
  | some (.str s) => if isValidEmail s then 0 else 1
  | some _ => 1

/-- Violations of the `age` constraints (number if present, integer, ≥ 0). -/
def ageViolations : Option Json → Nat
  | none => 0
  | some (.num q) => (if q.den = 1 then 0 else 1) + (if q < 0 then 1 else 0)
  | some _ => 1

/-- Violations of one `roles` element (must be a value of the enumeration). -/
def roleElemViolations (v : Json) : Nat :=
  match v with
  | .str s => if s = "admin" ∨ s = "user" then 0 else 1
  | _ => 1

/-- Violations of the `roles` constraints (sequence of enumerated values). -/
def rolesViolations : Option Json → Nat
  | none => 0
  | some (.arr xs) => (xs.map roleElemViolations).sum
  | some _ => 1

/-- Total number of violated field constraints of a request body. -/
def countViolations (ps : List (String × Json)) : Nat :=
  nameViolations (getKey ps "name") + emailViolations (getKey ps "email")
    + ageViolations (getKey ps "age") + rolesViolations (getKey ps "roles")

/-- Field lookup on a JSON value (`none` on non-objects). -/
def fieldOf (j : Json) (k : String) : Option Json :=
  match j with
  | .obj ps => getKey ps k
  | _ => none

/-- Whether a JSON object has a key. -/
def hasField (j : Json) (k : String) : Bool :=
  (fieldOf j k).isSome

/-- The declared keys of `UserSchema`. -/
def declaredUserKey (k : String) : Bool :=
  k = "name" || k = "email" || k = "age" || k = "roles"

/-! ### Characterization lemmas for the field parsers -/

theorem parseName_ok {o : Option Json} {n : Json} (h : parseName o = .ok n) :
    o = some n ∧ ∃ s, n = .str s ∧ 2 ≤ s.length := by
  cases o with
  | none => simp [parseName] at h
  | some v =>
    cases v with
    | str s =>
      rw [parseName] at h
      split at h
      · simp at h
      · rename_i hs
        simp only [Except.ok.injEq] at h
        exact ⟨by rw [h], s, h.symm, by omega⟩
    | null => simp [parseName] at h
    | bool b => simp [parseName] at h
    | num q => simp [parseName] at h
    | arr xs => simp [parseName] at h
    | obj ps => simp [parseName] at h

theorem parseName_str {s : String} (h : 2 ≤ s.length) :
    parseName (some (.str s)) = .ok (.str s) := by
  rw [parseName]
  split
  · omega
  · rfl

theorem parseEmail_ok {o : Option Json} {e : Json} (h : parseEmail o = .ok e) :
    o = some e ∧ ∃ s, e = .str s ∧ isValidEmail s = true := by
  cases o with
  | none => simp [parseEmail] at h
  | some v =>
    cases v with
    | str s =>
      rw [parseEmail] at h
      split at h
      · rename_i hs
        simp only [Except.ok.injEq] at h
        exact ⟨by rw [h], s, h.symm, hs⟩
      · simp at h
    | null => simp [parseEmail] at h
    | bool b => simp [parseEmail] at h
    | num q => simp [parseEmail] at h
    | arr xs => simp [parseEmail] at h
    | obj ps => simp [parseEmail] at h

theorem parseEmail_str {s : String} (h : isValidEmail s = true) :
    parseEmail (some (.str s)) = .ok (.str s) := by
  rw [parseEmail]
  split
  · rfl
  · rename_i hs
    exact absurd h hs

theorem ageCheckIssues_nil {q : Rat} (h1 : q.den = 1) (h2 : 0 ≤ q) :
    ageCheckIssues q = [] := by
  simp [ageCheckIssues, h1, not_lt.mpr h2]

theorem parseAge_ok {o : Option Json} {a : Option Json} (h : parseAge o = .ok a) :
    (o = none ∧ a = none) ∨
      ∃ q, o = some (.num q) ∧ a = some (.num q) ∧ q.den = 1 ∧ 0 ≤ q := by
  cases o with
  | none =>
    simp [parseAge] at h
    exact Or.inl ⟨rfl, h.symm⟩
  | some v =>
    cases v with
    | num q =>
      rw [parseAge] at h
      by_cases h1 : q.den = 1
      · by_cases h2 : (0 : Rat) ≤ q
        · simp [ageCheckIssues, h1, not_lt.mpr h2] at h
          exact Or.inr ⟨q, rfl, h.symm, h1, h2⟩
        · simp [ageCheckIssues, h1, lt_of_not_ge h2] at h
      · simp [ageCheckIssues, h1] at h
    | null => simp [parseAge] at h
    | bool b => simp [parseAge] at h
    | str s => simp [parseAge] at h
    | arr xs => simp [parseAge] at h
    | obj ps => simp [parseAge] at h

theorem parseAge_num {q : Rat} (h1 : q.den = 1) (h2 : 0 ≤ q) :
    parseAge (some (.num q)) = .ok (some (.num q)) := by
  rw [parseAge]
  simp [ageCheckIssues_nil h1 h2]

theorem parseRoles_ok {o : Option Json} {r : Json} (h : parseRoles o = .ok r) :
    (o = none ∧ r = .arr [.str "user"]) ∨
      ∃ xs, o = some (.arr xs) ∧ r = .arr xs ∧ rolesIssuesFrom 0 xs = [] := by
  cases o with
  | none =>
    simp [parseRoles] at h
    exact Or.inl ⟨rfl, h.symm⟩
  | some v =>
    cases v with
    | arr xs =>
      rw [parseRoles] at h
      split at h
      · rename_i hs
        simp only [Except.ok.injEq] at h
        exact Or.inr ⟨xs, rfl, h.symm, List.isEmpty_iff.mp hs⟩
      · simp at h
    | null => simp [parseRoles] at h
    | bool b => simp [parseRoles] at h
    | num q => simp [parseRoles] at h
    | str s => simp [parseRoles] at h
    | obj ps => simp [parseRoles] at h

theorem parseRoles_arr {xs : List Json} (h : rolesIssuesFrom 0 xs = []) :
    parseRoles (some (.arr xs)) = .ok (.arr xs) := by
  rw [parseRoles]
  simp [h]

/-! ### Decompositions of `UserSchema.parseFields` -/

theorem parseFields_ok {ps : List (String × Json)} {u : Json}
    (h : UserSchema.parseFields ps = .ok u) :
    ∃ n e a r, parseName (getKey ps "name") = .ok n ∧
      parseEmail (getKey ps "email") = .ok e ∧
      parseAge (getKey ps "age") = .ok a ∧
      parseRoles (getKey ps "roles") = .ok r ∧
      u = .obj ([("name", n), ("email", e)] ++ ageField a ++ [("roles", r)]) := by
  rw [UserSchema.parseFields] at h
  cases hn : parseName (getKey ps "name") with
  | error esn => rw [hn] at h; cases he : parseEmail (getKey ps "email") <;>
      cases ha : parseAge (getKey ps "age") <;>
      cases hr : parseRoles (getKey ps "roles") <;> simp_all
  | ok n =>
    rw [hn] at h
    cases he : parseEmail (getKey ps "email") with
    | error ese => rw [he] at h; cases ha : parseAge (getKey ps "age") <;>
        cases hr : parseRoles (getKey ps "roles") <;> simp_all
    | ok e =>
      rw [he] at h
      cases ha : parseAge (getKey ps "age") with
      | error esa => rw [ha] at h; cases hr : parseRoles (getKey ps "roles") <;> simp_all
      | ok a =>
        rw [ha] at h
        cases hr : parseRoles (getKey ps "roles") with
        | error esr => simp_all
        | ok r =>
          rw [hr] at h
          simp only [Except.ok.injEq] at h
          exact ⟨n, e, a, r, rfl, rfl, rfl, rfl, h.symm⟩

theorem parseFields_error {ps : List (String × Json)} {es : List Issue}
    (h : UserSchema.parseFields ps = .error es) :
    es = errList (parseName (getKey ps "name")) ++ errList (parseEmail (getKey ps "email"))
      ++ errList (parseAge (getKey ps "age")) ++ errList (parseRoles (getKey ps "roles")) := by
  rw [UserSchema.parseFields] at h
  cases hn : parseName (getKey ps "name") <;> rw [hn] at h <;>
    cases he : parseEmail (getKey ps "email") <;> rw [he] at h <;>
    cases ha : parseAge (getKey ps "age") <;> rw [ha] at h <;>
    cases hr : parseRoles (getKey ps "roles") <;> rw [hr] at h <;>
    simp_all [errList]

/-! ### Issue counts equal the spec-side violation counts -/

theorem errList_parseName_length (o : Option Json) :
    (errList (parseName o)).length = nameViolations o := by
  cases o with
  | none => rfl
  | some v =>
    cases v with
    | str s =>
      by_cases hs : s.length < 2 <;> simp [parseName, hs, errList, nameViolations]
    | null => rfl
    | bool b => rfl
    | num q => rfl
    | arr xs => rfl
    | obj ps => rfl

theorem errList_parseEmail_length (o : Option Json) :
    (errList (parseEmail o)).length = emailViolations o := by
  cases o with
  | none => rfl
  | some v =>
    cases v with
    | str s =>
      by_cases hs : isValidEmail s = true <;> simp [parseEmail, hs, errList, emailViolations]
    | null => rfl
    | bool b => rfl
    | num q => rfl
    | arr xs => rfl
    | obj ps => rfl

theorem errList_parseAge_length (o : Option Json) :
    (errList (parseAge o)).length = ageViolations o := by
  cases o with
  | none => rfl
  | some v =>
    cases v with
    | num q =>
      by_cases h1 : q.den = 1 <;> by_cases h2 : q < 0 <;>
        simp [parseAge, ageCheckIssues, h1, h2, errList, ageViolations]
    | null => rfl
    | bool b => rfl
    | str s => rfl
    | arr xs => rfl
    | obj ps => rfl

theorem roleElemIssues_length (i : Nat) (v : Json) :
    (roleElemIssues i v).length = roleElemViolations v := by
  cases v with
  | str s =>
    by_cases hs : s = "admin" ∨ s = "user" <;>
      simp [roleElemIssues, roleElemViolations, hs]
  | null => rfl
  | bool b => rfl
  | num q => rfl
  | arr xs => rfl
  | obj ps => rfl

theorem rolesIssuesFrom_length (i : Nat) (xs : List Json) :
    (rolesIssuesFrom i xs).length = (xs.map roleElemViolations).sum := by
  induction xs generalizing i with
  | nil => rfl
  | cons v rest ih => simp [rolesIssuesFrom, roleElemIssues_length, ih]

theorem errList_parseRoles_length (o : Option Json) :
    (errList (parseRoles o)).length = rolesViolations o := by
  cases o with
  | none => rfl
  | some v =>
    cases v with
    | arr xs =>
      rw [parseRoles]
      split
      · rename_i hs
        have hlen := rolesIssuesFrom_length 0 xs
        rw [List.isEmpty_iff.mp hs] at hlen
        simp [errList, rolesViolations, ← hlen]
      · simp [errList, rolesViolations, rolesIssuesFrom_length]
    | null => rfl
    | bool b => rfl
    | num q => rfl
    | str s => rfl
    | obj ps => rfl

/-! ### Every issue of a field parser carries that field's path -/

theorem parseName_error_path {o : Option Json} :
    ∀ x ∈ errList (parseName o), x.path.head? = some (.key "name") := by
  intro x hx
  cases o with
  | none => simp [parseName, errList] at hx; subst hx; rfl
  | some v =>
    cases v with
    | str s =>
      by_cases hs : s.length < 2
      · simp [parseName, hs, errList] at hx; subst hx; rfl
      · simp [parseName, hs, errList] at hx
    | null => simp [parseName, errList] at hx; subst hx; rfl
    | bool b => simp [parseName, errList] at hx; subst hx; rfl
    | num q => simp [parseName, errList] at hx; subst hx; rfl
    | arr xs => simp [parseName, errList] at hx; subst hx; rfl
    | obj ps => simp [parseName, errList] at hx; subst hx; rfl

theorem parseEmail_error_path {o : Option Json} :
    ∀ x ∈ errList (parseEmail o), x.path.head? = some (.key "email") := by
  intro x hx
  cases o with
  | none => simp [parseEmail, errList] at hx; subst hx; rfl
  | some v =>
    cases v with
    | str s =>
      by_cases hs : isValidEmail s = true
      · simp [parseEmail, hs, errList] at hx
      · simp [parseEmail, hs, errList] at hx; subst hx; rfl
    | null => simp [parseEmail, errList] at hx; subst hx; rfl
    | bool b => simp [parseEmail, errList] at hx; subst hx; rfl
    | num q => simp [parseEmail, errList] at hx; subst hx; rfl
    | arr xs => simp [parseEmail, errList] at hx; subst hx; rfl
    | obj ps => simp [parseEmail, errList] at hx; subst hx; rfl

theorem parseAge_error_path {o : Option Json} :
    ∀ x ∈ errList (parseAge o), x.path.head? = some (.key "age") := by
  intro x hx
  cases o with
  | none => simp [parseAge, errList] at hx
  | some v =>
    cases v with
    | num q =>
      by_cases h1 : q.den = 1 <;> by_cases h2 : q < 0 <;>
          simp [parseAge, ageCheckIssues, h1, h2, errList] at hx
      · subst hx; rfl
      · rcases hx with hx | hx <;> subst hx <;> rfl
      · subst hx; rfl
    | null => simp [parseAge, errList] at hx; subst hx; rfl
    | bool b => simp [parseAge, errList] at hx; subst hx; rfl
    | str s => simp [parseAge, errList] at hx; subst hx; rfl
    | arr xs => simp [parseAge, errList] at hx; subst hx; rfl
    | obj ps => simp [parseAge, errList] at hx; subst hx; rfl

theorem roleElemIssues_path (i : Nat) (v : Json) :
    ∀ x ∈ roleElemIssues i v, x.path.head? = some (.key "roles") := by
  intro x hx
  cases v with
  | str s =>
    by_cases hs : s = "admin" ∨ s = "user"
    · simp [roleElemIssues, hs] at hx
    · simp [roleElemIssues, hs] at hx; subst hx; rfl
  | null => simp [roleElemIssues] at hx; subst hx; rfl
  | bool b => simp [roleElemIssues] at hx; subst hx; rfl
  | num q => simp [roleElemIssues] at hx; subst hx; rfl
  | arr xs => simp [roleElemIssues] at hx; subst hx; rfl
  | obj ps => simp [roleElemIssues] at hx; subst hx; rfl

theorem rolesIssuesFrom_path (i : Nat) (xs : List Json) :
    ∀ x ∈ rolesIssuesFrom i xs, x.path.head? = some (.key "roles") := by
  induction xs generalizing i with
  | nil => simp [rolesIssuesFrom]
  | cons v rest ih =>
    intro x hx
    rw [rolesIssuesFrom] at hx
    rcases List.mem_append.mp hx with h | h
    · exact roleElemIssues_path i v x h
    · exact ih (i + 1) x h

theorem parseRoles_error_path {o : Option Json} :
    ∀ x ∈ errList (parseRoles o), x.path.head? = some (.key "roles") := by
  intro x hx
  cases o with
  | none => simp [parseRoles, errList] at hx
  | some v =>
    cases v with
    | arr xs =>
      rw [parseRoles] at hx
      split at hx
      · simp [errList] at hx
      · exact rolesIssuesFrom_path 0 xs x hx
    | null => simp [parseRoles, errList] at hx; subst hx; rfl
    | bool b => simp [parseRoles, errList] at hx; subst hx; rfl
    | num q => simp [parseRoles, errList] at hx; subst hx; rfl
    | str s => simp [parseRoles, errList] at hx; subst hx; rfl
    | obj ps => simp [parseRoles, errList] at hx; subst hx; rfl

/-! ### Lookup sees only the kept keys of a filtered object -/

theorem getKey_filter (P : String → Bool) (ps : List (String × Json)) (k : String)
    (hk : P k = true) :
    getKey (ps.filter fun p => P p.1) k = getKey ps k := by
  induction ps with
  | nil => rfl
  | cons p rest ih =>
    obtain ⟨k2, v⟩ := p
    by_cases h : k2 = k
    · subst h
      simp [List.filter_cons, hk, getKey]
    · by_cases hp : P k2 = true
      · simp [List.filter_cons, hp, getKey, h, ih]
      · simp [List.filter_cons, hp, getKey, h, ih]

/-! ### Concrete request bodies of the end-to-end scenarios -/

/-- Scenario 1 request body. -/
def scenario1Body : Json := .obj [("name", .str "Al"), ("email", .str "al@example.com")]

/-- Scenario 1 expected 201 response body. -/
def scenario1Response : Json :=
  .obj [("name", .str "Al"), ("email", .str "al@example.com"), ("roles", .arr [.str "user"])]

/-- Scenario 2 request body. -/
def scenario2Body : Json := .obj [("name", .str "A"), ("email", .str "bad")]

/-- The name-too-short issue of scenario 2. -/
def nameTooShortIssue : Issue :=
  ⟨"too_small", "Name must be at least 2 characters long.", [.key "name"],
    [("minimum", .num 2), ("type", .str "string"), ("inclusive", .bool true),
     ("exact", .bool false)]⟩

/-- The invalid-email issue of scenario 2. -/
def emailInvalidIssue : Issue :=
  ⟨"invalid_string", "Invalid email format. Please provide a valid email.", [.key "email"],
    [("validation", .str "email")]⟩

/-- Scenario 3 request body. -/
def scenario3Body : Json :=
  .obj [("name", .str "Bo"), ("email", .str "bo@x.com"), ("roles", .arr [.str "owner"])]

/-- The single enum issue of scenario 3, at path `roles[0]`. -/
def scenario3Issue : Issue :=
  ⟨"invalid_enum_value", roleMessage, [.key "roles", .idx 0],
    [("received", .str "owner"), ("options", .arr [.str "admin", .str "user"])]⟩

/-! ### The claims -/

/-- C1: every body accepted by `UserSchema` is answered 201 with the
normalized payload; `name`, `email` and `age` are forwarded exactly as
sent (`age` stays absent when absent), `roles` is forwarded as sent when
present and filled with the default `["user"]` exactly when absent; in
particular scenario 1 yields 201 with the defaulted body. -/
theorem post_users_valid_payload_normalized
    (ps : List (String × Json)) (u : Json)
    (h : UserSchema.parse (.obj ps) = .ok u) :
    postUsers (.obj ps) = (201, u) ∧
    fieldOf u "name" = getKey ps "name" ∧
    fieldOf u "email" = getKey ps "email" ∧
    fieldOf u "age" = getKey ps "age" ∧
    fieldOf u "roles" = some ((getKey ps "roles").getD (.arr [.str "user"])) ∧
    postUsers scenario1Body = (201, scenario1Response) := by
  have h' : UserSchema.parseFields ps = .ok u := h
  obtain ⟨n, e, a, r, hn, he, ha, hr, hu⟩ := parseFields_ok h'
  obtain ⟨hn1, s, hns, hslen⟩ := parseName_ok hn
  obtain ⟨he1, t, het, htv⟩ := parseEmail_ok he
  subst hu
  refine ⟨by simp [postUsers, CreateUserDTO.parse, h], ?_, ?_, ?_, ?_, rfl⟩ <;>
  · rcases parseAge_ok ha with ⟨hao, han⟩ | ⟨q, hao, han, hq1, hq2⟩ <;>
    rcases parseRoles_ok hr with ⟨hro, hrd⟩ | ⟨xs, hro, hrd, hxs⟩ <;>
      subst han <;> subst hrd <;>
      simp [fieldOf, ageField, getKey, hn1, he1, hao, hro]

/-- C1 witness: the theorem applied to the scenario 1 body. -/
theorem post_users_valid_payload_normalized_witness :
    postUsers scenario1Body = (201, scenario1Response) :=
  (post_users_valid_payload_normalized
    [("name", .str "Al"), ("email", .str "al@example.com")] scenario1Response rfl).1

/-- C2: a body rejected by the schema makes the middleware respond 400
with `{error: "Validation failed", details: [...]}` and never call the
route handler; every serialized detail entry carries the issue's `code`,
`message` and `path`. -/
theorem invalid_payload_short_circuits_400 (j : Json) (es : List Issue)
    (h : UserSchema.parse j = .error es) :
    validateRequest (runCreateUser j) = .respond 400 (errorBody es) ∧
    (∀ u, validateRequest (runCreateUser j) ≠ .next u) ∧
    errorBody es = .obj [("error", .str "Validation failed"),
      ("details", .arr (es.map issueToJson))] ∧
    ∀ x ∈ es, ∃ fs, issueToJson x = .obj fs ∧
      ("code", .str x.code) ∈ fs ∧ ("message", .str x.message) ∈ fs ∧
      ("path", .arr (x.path.map pathElemToJson)) ∈ fs := by
  have hrun : runCreateUser j = .error (.zodError es) := by
    simp [runCreateUser, CreateUserDTO.parse, h, Except.mapError]
  refine ⟨by rw [hrun]; rfl, ?_, rfl, ?_⟩
  · intro u
    rw [hrun]
    simp [validateRequest]
  · intro x hx
    refine ⟨_, rfl, ?_, ?_, ?_⟩ <;> simp [issueToJson, List.mem_append]

/-- C2 witness: the theorem applied to a non-object body. -/
theorem invalid_payload_short_circuits_400_witness :
    validateRequest (runCreateUser .null) =
      .respond 400 (errorBody [⟨"invalid_type", "Expected object, received null", [],
        [("expected", .str "object"), ("received", .str "null")]⟩]) :=
  (invalid_payload_short_circuits_400 .null
    [⟨"invalid_type", "Expected object, received null", [],
      [("expected", .str "object"), ("received", .str "null")]⟩] rfl).1

/-- C3: on an object body the number of detail entries equals the number
of violated field constraints, and the details decompose into the issues
of `name`, `email`, `age`, `roles` in that (declaration) order; in
particular scenario 2 yields 400 with exactly the name-too-short issue
followed by the invalid-email issue. -/
theorem details_match_violated_constraints (ps : List (String × Json)) (es : List Issue)
    (h : UserSchema.parse (.obj ps) = .error es) :
    es.length = countViolations ps ∧
    (∃ ln le la lr, es = ln ++ le ++ la ++ lr ∧
      (∀ x ∈ ln, x.path.head? = some (.key "name")) ∧
      (∀ x ∈ le, x.path.head? = some (.key "email")) ∧
      (∀ x ∈ la, x.path.head? = some (.key "age")) ∧
      (∀ x ∈ lr, x.path.head? = some (.key "roles"))) ∧
    postUsers scenario2Body = (400, errorBody [nameTooShortIssue, emailInvalidIssue]) ∧
    (errList (UserSchema.parse scenario2Body)).map Issue.code
      = ["too_small", "invalid_string"] := by
  have h' : UserSchema.parseFields ps = .error es := h
  have hdec := parseFields_error h'
  refine ⟨?_, ⟨_, _, _, _, hdec, parseName_error_path, parseEmail_error_path,
    parseAge_error_path, parseRoles_error_path⟩, rfl, rfl⟩
  rw [hdec]
  simp [countViolations, errList_parseName_length, errList_parseEmail_length,
    errList_parseAge_length, errList_parseRoles_length]
  omega

/-- C3 witness: the theorem applied to the scenario 2 body. -/
theorem details_match_violated_constraints_witness :
    [nameTooShortIssue, emailInvalidIssue].length
      = countViolations [("name", .str "A"), ("email", .str "bad")] :=
  (details_match_violated_constraints [("name", .str "A"), ("email", .str "bad")]
    [nameTooShortIssue, emailInvalidIssue] rfl).1

/-- C4: boundary behaviour: `age = 0` is accepted, any object body with
`age = -1` is rejected, absent `roles` is defaulted to `["user"]`, and
`roles: []` is accepted unchanged. -/
theorem boundary_age_and_roles :
    UserSchema.parse
        (.obj [("name", .str "Di"), ("email", .str "di@mail.org"), ("age", .num 0)])
      = .ok (.obj [("name", .str "Di"), ("email", .str "di@mail.org"), ("age", .num 0),
          ("roles", .arr [.str "user"])]) ∧
    (∀ ps, getKey ps "age" = some (.num (-1)) →
      (UserSchema.parse (.obj ps)).isOk = false) ∧
    UserSchema.parse (.obj [("name", .str "Ed"), ("email", .str "ed@mail.org")])
      = .ok (.obj [("name", .str "Ed"), ("email", .str "ed@mail.org"),
          ("roles", .arr [.str "user"])]) ∧
    UserSchema.parse
        (.obj [("name", .str "Fi"), ("email", .str "fi@mail.org"), ("roles", .arr [])])
      = .ok (.obj [("name", .str "Fi"), ("email", .str "fi@mail.org"),
          ("roles", .arr [])]) := by
  refine ⟨rfl, ?_, rfl, rfl⟩
  intro ps hps
  have ha : parseAge (getKey ps "age") = .error [ageMinIssue] := by rw [hps]; rfl
  show (UserSchema.parseFields ps).isOk = false
  cases hres : UserSchema.parseFields ps with
  | ok u =>
    obtain ⟨n, e, a, r, _, _, ha2, _, _⟩ := parseFields_ok hres
    rw [ha] at ha2
    cases ha2
  | error es => rfl

/-- C4 witness: the rejection branch applied to a body with `age = -1`. -/
theorem boundary_age_and_roles_witness :
    (UserSchema.parse (.obj [("age", .num (-1))])).isOk = false :=
  boundary_age_and_roles.2.1 [("age", .num (-1))] rfl

/-- C5: validation is idempotent on its own output: re-parsing an
accepted, normalized object succeeds and returns it unchanged. -/
theorem user_schema_parse_idempotent (j u : Json) (h : UserSchema.parse j = .ok u) :
    UserSchema.parse u = .ok u := by
  cases j with
  | obj ps =>
    have h' : UserSchema.parseFields ps = .ok u := h
    obtain ⟨n, e, a, r, hn, he, ha, hr, hu⟩ := parseFields_ok h'
    obtain ⟨hn1, s, hns, hslen⟩ := parseName_ok hn
    obtain ⟨he1, t, het, htv⟩ := parseEmail_ok he
    subst hu hns het
    have hdu : rolesIssuesFrom 0 [Json.str "user"] = [] := rfl
    rcases parseAge_ok ha with ⟨hao, han⟩ | ⟨q, hao, han, hq1, hq2⟩ <;>
      rcases parseRoles_ok hr with ⟨hro, hrd⟩ | ⟨xs, hro, hrd, hxs⟩ <;>
      subst han <;> subst hrd
    · simp [UserSchema.parse, UserSchema.parseFields, ageField, getKey,
        parseName_str hslen, parseEmail_str htv, parseRoles_arr hdu, parseAge]
    · simp [UserSchema.parse, UserSchema.parseFields, ageField, getKey,
        parseName_str hslen, parseEmail_str htv, parseRoles_arr hxs, parseAge]
    · simp [UserSchema.parse, UserSchema.parseFields, ageField, getKey,
        parseName_str hslen, parseEmail_str htv, parseAge_num hq1 hq2, parseRoles_arr hdu]
    · simp [UserSchema.parse, UserSchema.parseFields, ageField, getKey,
        parseName_str hslen, parseEmail_str htv, parseAge_num hq1 hq2, parseRoles_arr hxs]
  | null => cases h
  | bool b => cases h
  | num q => cases h
  | str s => cases h
  | arr xs => cases h

/-- C5 witness: the theorem applied to the scenario 1 body and output. -/
theorem user_schema_parse_idempotent_witness :
    UserSchema.parse scenario1Response = .ok scenario1Response :=
  user_schema_parse_idempotent scenario1Body scenario1Response rfl

/-- C6: scenario 3 (`roles: ["owner"]`) is rejected with 400 and exactly
one detail entry, whose path is `["roles", 0]`. -/
theorem scenario3_enum_rejection :
    postUsers scenario3Body = (400, errorBody [scenario3Issue]) ∧
    (errList (UserSchema.parse scenario3Body)).map Issue.path = [[.key "roles", .idx 0]] ∧
    scenario3Issue.path = [.key "roles", .idx 0] :=
  ⟨rfl, rfl, rfl⟩

/-- C7: a non-`ZodError` exception is never answered with the 400
validation response; the middleware forwards it with `next(error)`. -/
theorem non_zod_error_forwarded (t : Nat) :
    validateRequest (.error (.other t)) = .forwardError t ∧
    ∀ (s : Nat) (b : Json), validateRequest (.error (.other t)) ≠ .respond s b :=
  ⟨rfl, fun _ _ h => by simp [validateRequest] at h⟩

/-- C8: the query schema defaults `{includeRoles: false, page: 1, limit:
10}` on an empty input; a `page` that is not an integer ≥ 1 is rejected,
a `limit` that is not an integer in `[1, 100]` is rejected, `limit = 100`
is accepted and `limit = 101` and `limit = 0` are rejected. -/
theorem query_defaults_and_bounds :
    GetUserQueryDTO.parse (.obj []) = .ok (.obj [("includeRoles", .bool false),
      ("page", .num 1), ("limit", .num 10)]) ∧
    (∀ ps q, getKey ps "page" = some (.num q) → (q.den ≠ 1 ∨ q < 1) →
      (GetUserQueryDTO.parse (.obj ps)).isOk = false) ∧
    (∀ ps q, getKey ps "limit" = some (.num q) → (q.den ≠ 1 ∨ q < 1 ∨ 100 < q) →
      (GetUserQueryDTO.parse (.obj ps)).isOk = false) ∧
    GetUserQueryDTO.parse (.obj [("limit", .num 100)]) = .ok (.obj [("includeRoles",
      .bool false), ("page", .num 1), ("limit", .num 100)]) ∧
    (GetUserQueryDTO.parse (.obj [("limit", .num 101)])).isOk = false ∧
    (GetUserQueryDTO.parse (.obj [("limit", .num 0)])).isOk = false := by
  refine ⟨rfl, ?_, ?_, rfl, rfl, rfl⟩
  · intro ps q hq hbad
    have hp : (pageCheckIssues q).isEmpty = false := by
      rcases hbad with h1 | h2
      · simp [pageCheckIssues, h1]
      · simp [pageCheckIssues, h2]
    have hpp : parsePage (getKey ps "page") = .error (pageCheckIssues q) := by
      rw [hq, parsePage, hp]
      rfl
    show (GetUserQueryDTO.parseFields ps).isOk = false
    rw [GetUserQueryDTO.parseFields]
    cases h1 : parseIncludeRoles (getKey ps "includeRoles") <;>
      cases h3 : parseLimit (getKey ps "limit") <;>
      simp [hpp, Except.isOk, Except.toBool]
  · intro ps q hq hbad
    have hl : (limitCheckIssues q).isEmpty = false := by
      rcases hbad with h1 | h2 | h3
      · simp [limitCheckIssues, h1]
      · simp [limitCheckIssues, h2]
      · simp [limitCheckIssues, h3]
    have hll : parseLimit (getKey ps "limit") = .error (limitCheckIssues q) := by
      rw [hq, parseLimit, hl]
      rfl
    show (GetUserQueryDTO.parseFields ps).isOk = false
    rw [GetUserQueryDTO.parseFields]
    cases h1 : parseIncludeRoles (getKey ps "includeRoles") <;>
      cases h2 : parsePage (getKey ps "page") <;>
      simp [hll, Except.isOk, Except.toBool]

/-- C8 witness: the rejection branches applied to `page = 0` and
`limit = 0`. -/
theorem query_defaults_and_bounds_witness :
    (GetUserQueryDTO.parse (.obj [("page", .num 0)])).isOk = false ∧
    (GetUserQueryDTO.parse (.obj [("limit", .num 0)])).isOk = false :=
  ⟨query_defaults_and_bounds.2.1 [("page", .num 0)] 0 rfl (Or.inr (by norm_num)),
   query_defaults_and_bounds.2.2.1 [("limit", .num 0)] 0 rfl (Or.inr (Or.inl (by norm_num)))⟩

/-- Request body of the undeclared-key example: a valid user payload with
an extra `nickname` key. -/
def extraKeyBody : Json :=
  .obj [("name", .str "Gus"), ("email", .str "gus@mail.org"), ("nickname", .str "G")]

/-- Response body of the undeclared-key example: `nickname` is stripped,
the `roles` default is added. -/
def extraKeyResponse : Json :=
  .obj [("name", .str "Gus"), ("email", .str "gus@mail.org"), ("roles", .arr [.str "user"])]

/-- C9: parsing ignores undeclared keys (filtering the body to the
declared keys leaves the result unchanged), every accepted output object
carries only declared keys, and the concrete extra-key example is
accepted with the `nickname` key stripped, so the echoed body differs
from the request body. -/
theorem undeclared_keys_stripped :
    (∀ ps, UserSchema.parse (.obj (ps.filter fun p => declaredUserKey p.1))
      = UserSchema.parse (.obj ps)) ∧
    (∀ ps u, UserSchema.parse (.obj ps) = .ok u →
      ∃ qs, u = .obj qs ∧ ∀ p ∈ qs, declaredUserKey p.1 = true) ∧
    postUsers extraKeyBody = (201, extraKeyResponse) ∧
    extraKeyResponse ≠ extraKeyBody := by
  refine ⟨?_, ?_, rfl, ?_⟩
  · intro ps
    show UserSchema.parseFields (ps.filter fun p => declaredUserKey p.1)
      = UserSchema.parseFields ps
    simp only [UserSchema.parseFields]
    rw [getKey_filter declaredUserKey ps "name" rfl,
      getKey_filter declaredUserKey ps "email" rfl,
      getKey_filter declaredUserKey ps "age" rfl,
      getKey_filter declaredUserKey ps "roles" rfl]
  · intro ps u h
    obtain ⟨n, e, a, r, hn, he, ha, hr, hu⟩ := parseFields_ok (h := h)
    subst hu
    refine ⟨_, rfl, ?_⟩
    intro p hp
    rcases parseAge_ok ha with ⟨hao, han⟩ | ⟨q, hao, han, hq1, hq2⟩ <;> subst han
    · simp [ageField] at hp
      rcases hp with rfl | rfl | rfl <;> rfl
    · simp [ageField] at hp
      rcases hp with rfl | rfl | rfl | rfl <;> rfl
  · intro hEq
    exact absurd (congrArg (fun j => hasField j "nickname") hEq) (by decide)

/-- C9 witness: the output-keys branch applied to the extra-key example. -/
theorem undeclared_keys_stripped_witness :
    ∃ qs, extraKeyResponse = .obj qs ∧ ∀ p ∈ qs, declaredUserKey p.1 = true :=
  undeclared_keys_stripped.2.1
    [("name", .str "Gus"), ("email", .str "gus@mail.org"), ("nickname", .str "G")]
    extraKeyResponse rfl

/-- C10: the scenario 3 rejection produces a raw Zod issue whose path has
the numeric index 0 as its second element and which carries fields beyond
`code`, `message`, `path`; the actual 400 body therefore fails the 400
response schema registered for documentation (which types `path` as an
array of strings), while a string-only path would satisfy it. -/
theorem actual_400_body_not_conforming :
    UserSchema.parse scenario3Body = .error [scenario3Issue] ∧
    scenario3Issue.path.get? 1 = some (.idx 0) ∧
    scenario3Issue.extra
      = [("received", .str "owner"), ("options", .arr [.str "admin", .str "user"])] ∧
    issueToJson scenario3Issue = .obj [("code", .str "invalid_enum_value"),
      ("received", .str "owner"), ("options", .arr [.str "admin", .str "user"]),
      ("path", .arr [.str "roles", .num 0]), ("message", .str roleMessage)] ∧
    conforms400 (errorBody [scenario3Issue]) = false ∧
    conforms400 (.obj [("error", .str "Validation failed"), ("details",
      .arr [.obj [("code", .str "invalid_enum_value"), ("message", .str roleMessage),
        ("path", .arr [.str "roles"])]])]) = true :=
  ⟨rfl, rfl, rfl, rfl, rfl, rfl⟩

end ZodOpenApi
